import Mathlib

/-!
Verification of the clinic record system (`sistema_clinica_vida.py`).

This file shallowly embeds the core record operations of the source:
the invoice installment-plan generation, id assignment for appointments
and invoices, the patient/doctor appointment mutations, authentication,
account/patient creation, invoice paid-flag toggling, storage loading,
and the default-admin bootstrap.  Monetary values, handled by the source
as Python floats rounded with `round(x, 2)`, are modelled as exact
rationals with round-half-to-even to two decimal places (the decimal
idealization of Python's rounding).  Each interactive operation is
embedded as a pure function from the relevant collections and the
already-parsed inputs to the updated collections, paired with a success
flag or a result value recording whether the source persisted the
collection (every mutating path of the source calls `save_json`
immediately after mutating, so the returned flag equals "was saved").
-/

/-- An account record, as stored in `users.json`:
`{"username": ..., "password": ..., "role": ..., "name": ...}`. -/
structure Account where
  username : String
  password : String
  role : String
  name : String
deriving DecidableEq, Repr

/-- A patient record, as stored in `pacientes.json`.  The `user` key is
absent when the record is not linked to an account. -/
structure Patient where
  nome : String
  idade : ℕ
  telefone : String
  user : Option String
deriving DecidableEq, Repr

/-- An appointment record, as stored in `appointments.json`.  The
`last_modified_*` keys are absent until some mutation sets them. -/
structure Appointment where
  id : ℤ
  patient_user : String
  patient_name : String
  doctor_user : Option String
  datetime : String
  status : String
  notes : String
  created_at : String
  created_by : String
  last_modified_at : Option String
  last_modified_by : Option String
deriving DecidableEq, Repr

/-- One installment (parcel) of an invoice:
`{"number": i, "amount": amt, "paid": False}`. -/
structure Parcel where
  number : ℕ
  amount : ℚ
  paid : Bool
deriving DecidableEq, Repr

/-- An invoice record, as stored in `invoices.json`. -/
structure Invoice where
  id : ℤ
  patient_user : String
  total : ℚ
  parcels : List Parcel
  created_at : String
  created_by : String
deriving DecidableEq, Repr

/-- Round a rational to the nearest integer, halves to even: the decimal
idealization of Python's `round` on the values this program produces. -/
def rint (x : ℚ) : ℤ :=
  let n := ⌊x⌋
  let f := x - (n : ℚ)
  if f < 1/2 then n
  else if 1/2 < f then n + 1
  else if n % 2 = 0 then n else n + 1

/-- Rounding to two decimal places, `round(x, 2)` in the source. -/
def round2 (x : ℚ) : ℚ := (rint (x * 100) : ℚ) / 100

/-- The loop of `admin_create_invoice_for_patient` building the parcels:
`for i in range(1, n+1): amt = base if i < n else round(remaining, 2);
parcels.append(...); remaining -= amt`.  `k` is the number of iterations
left, `i` the current 1-based index. -/
def parcelLoop (base : ℚ) (n : ℕ) : ℕ → ℕ → ℚ → List Parcel
  | 0, _, _ => []
  | k + 1, i, remaining =>
    let amt := if i < n then base else round2 remaining
    { number := i, amount := amt, paid := false } :: parcelLoop base n k (i + 1) (remaining - amt)

/-- Parcel generation of `admin_create_invoice_for_patient`:
`base = round(total / n, 2); remaining = total`, then the loop over
`i in range(1, n+1)`. -/
def mkParcels (total : ℚ) (n : ℕ) : List Parcel :=
  parcelLoop (round2 (total / (n : ℚ))) n n 1 total

/-- The id generator `new_appt_id`: `1` on an empty collection, else
`max(a.get("id", 0) for a in appointments) + 1`. -/
def new_appt_id (appointments : List Appointment) : ℤ :=
  match appointments with
  | [] => 1
  | a :: rest => (rest.foldl (fun m b => max m b.id) a.id) + 1

/-- The id generator `new_invoice_id`: `1` on an empty collection, else
`max(i.get("id", 0) for i in invoices) + 1`. -/
def new_invoice_id (invoices : List Invoice) : ℤ :=
  match invoices with
  | [] => 1
  | i :: rest => (rest.foldl (fun m b => max m b.id) i.id) + 1

/-- Appointment creation `cadastrar_agendamento`, after the interactive
prompts have produced the doctor choice, date string and notes: appends
a record with the freshly generated id and initial status `agendado`,
then saves. -/
def cadastrar_agendamento (appointments : List Appointment)
    (patient_user patient_name : String) (doc_user : Option String)
    (dt notes ts : String) : List Appointment :=
  appointments ++
    [{ id := new_appt_id appointments, patient_user := patient_user,
       patient_name := patient_name, doctor_user := doc_user, datetime := dt,
       status := "agendado", notes := notes, created_at := ts,
       created_by := patient_user, last_modified_at := none,
       last_modified_by := none }]

/-- Replace the first element satisfying `p` by its image under `f`,
leaving everything else in place: the effect of Python's in-place
mutation of the record returned by `next(a for a in coll if ...)`. -/
def updateFirst (p : α → Bool) (f : α → α) : List α → List α
  | [] => []
  | a :: l => if p a then f a :: l else a :: updateFirst p f l

/-- Remove the first element satisfying `p`: the effect of
`coll.remove(obj)` when `obj` is the first element satisfying `p`. -/
def removeFirst (p : α → Bool) : List α → List α
  | [] => []
  | a :: l => if p a then l else a :: removeFirst p l

/-- The lookup used by all three patient appointment mutations:
`next(a for a in appointments if a["id"]==id_int and
a["patient_user"]==username)`. -/
def apptOfPatient (id_int : ℤ) (username : String) (a : Appointment) : Bool :=
  a.id == id_int && a.patient_user == username

/-- Option 2 of `paciente_agendamentos_menu`: edit the date/time and the
doctor of one of the patient's own appointments.  `novo_doc = none`
keeps the current doctor.  On a failed lookup (`StopIteration` caught by
the bare `except`) nothing is changed and nothing is saved; the returned
flag records whether the collection was saved. -/
def paciente_editar_agendamento (appointments : List Appointment)
    (username : String) (id_int : ℤ) (novo_doc : Option String)
    (novo_dt ts : String) : List Appointment × Bool :=
  match appointments.find? (apptOfPatient id_int username) with
  | none => (appointments, false)
  | some ap =>
    let nd := match novo_doc with
      | none => ap.doctor_user
      | some d => some d
    (updateFirst (apptOfPatient id_int username)
      (fun a => { a with datetime := novo_dt, doctor_user := nd,
                         last_modified_at := some ts,
                         last_modified_by := some username }) appointments, true)

/-- Option 3 of `paciente_agendamentos_menu`: mark one of the patient's
own appointments as `cancelado`, after a yes/no confirmation. -/
def paciente_cancelar_agendamento (appointments : List Appointment)
    (username : String) (id_int : ℤ) (confirmed : Bool) (ts : String) :
    List Appointment × Bool :=
  match appointments.find? (apptOfPatient id_int username) with
  | none => (appointments, false)
  | some _ =>
    if confirmed then
      (updateFirst (apptOfPatient id_int username)
        (fun a => { a with status := "cancelado",
                           last_modified_at := some ts,
                           last_modified_by := some username }) appointments, true)
    else (appointments, false)

/-- Option 4 of `paciente_agendamentos_menu`: destructively remove one of
the patient's own appointments, after a yes/no confirmation. -/
def paciente_remover_agendamento (appointments : List Appointment)
    (username : String) (id_int : ℤ) (confirmed : Bool) :
    List Appointment × Bool :=
  match appointments.find? (apptOfPatient id_int username) with
  | none => (appointments, false)
  | some _ =>
    if confirmed then
      (removeFirst (apptOfPatient id_int username) appointments, true)
    else (appointments, false)

/-- The four status strings accepted by
`editar_status_agendamento_medico`. -/
def status_validos : List String := ["agendado", "confirmado", "concluido", "cancelado"]

/-- The lookup used by the doctor's status mutation:
`next(a for a in appointments if a["id"]==id_int and
a.get("doctor_user")==doctor_user)`. -/
def apptOfDoctor (id_int : ℤ) (doctor_user : String) (a : Appointment) : Bool :=
  a.id == id_int && a.doctor_user == some doctor_user

/-- `editar_status_agendamento_medico`: the doctor sets the status of an
appointment assigned to them to any of the four valid values; a failed
lookup or an invalid status string changes and saves nothing. -/
def editar_status_agendamento_medico (appointments : List Appointment)
    (doctor_user : String) (id_int : ℤ) (novo ts : String) :
    List Appointment × Bool :=
  match appointments.find? (apptOfDoctor id_int doctor_user) with
  | none => (appointments, false)
  | some _ =>
    if status_validos.contains novo then
      (updateFirst (apptOfDoctor id_int doctor_user)
        (fun a => { a with status := novo,
                           last_modified_at := some ts,
                           last_modified_by := some doctor_user }) appointments, true)
    else (appointments, false)

/-- `find_user`: first account whose `username` field matches. -/
def find_user (users : List Account) (username : String) : Option Account :=
  users.find? (fun u => u.username == username)

/-- Outcome of `autenticar`.  The source prints a single message
`"Usuário ou senha inválidos."` both when no account matches the
username and when the password differs (`if not user or
user.get("password") != password`), and a distinct message
`"Permissão incorreta."` when the role differs. -/
inductive AuthResult where
  | success (u : Account)
  | errCredenciais
  | errPermissao
deriving DecidableEq, Repr

/-- `autenticar(role_expected)` after the username and password prompts:
lookup, combined user/password check, then role check. -/
def autenticar (users : List Account) (role_expected username password : String) :
    AuthResult :=
  match find_user users username with
  | none => .errCredenciais
  | some user =>
    if user.password == password then
      if user.role == role_expected then .success user else .errPermissao
    else .errCredenciais

/-- `criar_usuario(role, username, password, name)` after the prompts:
fails when the username already exists; for role `medico` with neither
`skip_auth` nor a correct authorization code (`authOk = false`) fails;
otherwise appends the account and saves, and for role `paciente`
additionally appends a linked patient record unless one with that
username already exists.  Returns the updated users and patients
collections and the created account, if any. -/
def criar_usuario (users : List Account) (patients : List Patient)
    (role username password name : String) (authOk : Bool) :
    List Account × List Patient × Option Account :=
  if (find_user users username).isSome then (users, patients, none)
  else if role == "medico" && !authOk then (users, patients, none)
  else
    let user : Account := { username := username, password := password,
                            role := role, name := name }
    let users1 := users ++ [user]
    if role == "paciente" then
      if (patients.find? (fun p => p.user == some username)).isSome then
        (users1, patients, some user)
      else
        (users1, patients ++ [{ nome := name, idade := 0,
                                telefone := "Não informado",
                                user := some username }], some user)
    else (users1, patients, some user)

/-- Option 2 of `admin_crud_patients`: management creates a patient
record from name, age, phone and an optional linked username, appending
it unconditionally and saving. -/
def admin_criar_paciente (patients : List Patient) (nome : String)
    (idade : ℕ) (tel : String) (userlink : Option String) : List Patient :=
  patients ++ [{ nome := nome, idade := idade, telefone := tel, user := userlink }]

/-- Outcome of `admin_create_invoice_for_patient`.  `errValor` is the
`"Valor inválido."` path (the total text did not parse as a number) and
`errParcelas` the `"Parcelas inválidas."` path (the count text did not
parse as an integer, or `assert n > 0` failed). -/
inductive CreateInvoiceResult where
  | created (id : ℤ)
  | errValor
  | errParcelas
deriving DecidableEq, Repr

/-- `admin_create_invoice_for_patient` after the patient has been chosen:
`totalParsed`/`nParsed` are the outcomes of `float(total_txt)` and
`int(n_txt)` (`none` when parsing raised).  The only check on the
parsed total is that parsing succeeded; the count must be a positive
integer.  On success the invoice with the fresh id and the generated
parcels is appended and saved. -/
def admin_create_invoice_for_patient (invoices : List Invoice)
    (patient_user : String) (totalParsed : Option ℚ) (nParsed : Option ℤ)
    (ts : String) : List Invoice × CreateInvoiceResult :=
  match totalParsed with
  | none => (invoices, .errValor)
  | some total =>
    match nParsed with
    | none => (invoices, .errParcelas)
    | some n =>
      if n ≤ 0 then (invoices, .errParcelas)
      else
        let inv : Invoice := { id := new_invoice_id invoices,
                               patient_user := patient_user, total := total,
                               parcels := mkParcels total n.toNat,
                               created_at := ts, created_by := "gestao" }
        (invoices ++ [inv], .created inv.id)

/-- The parcel lookup of `admin_edit_invoice_parcel`. -/
def parcelWithNumber (num : ℕ) (p : Parcel) : Bool := p.number == num

/-- The invoice lookup of `admin_edit_invoice_parcel`. -/
def invoiceWithId (id_int : ℤ) (i : Invoice) : Bool := i.id == id_int

/-- The in-place flip `parc["paid"] = not parc["paid"]`. -/
def flipParcel (p : Parcel) : Parcel := { p with paid := !p.paid }

/-- The effect on the found invoice of flipping its first parcel with
the given number. -/
def flipInvoice (num : ℕ) (i : Invoice) : Invoice :=
  { i with parcels := updateFirst (parcelWithNumber num) flipParcel i.parcels }

/-- `admin_edit_invoice_parcel` after the two id prompts: find the
invoice by id and the parcel by number (each failure caught by the bare
`except`, changing and saving nothing), then flip that parcel's `paid`
flag in place and save. -/
def admin_edit_invoice_parcel (invoices : List Invoice) (id_int : ℤ)
    (num : ℕ) : List Invoice × Bool :=
  match invoices.find? (invoiceWithId id_int) with
  | none => (invoices, false)
  | some inv =>
    match inv.parcels.find? (parcelWithNumber num) with
    | none => (invoices, false)
    | some _ =>
      (updateFirst (invoiceWithId id_int) (flipInvoice num) invoices, true)

/-- The on-disk state of one collection file, as `load_json` can
encounter it: absent, present but unparseable, or holding a value. -/
inductive DiskFile (α : Type) where
  | missing
  | corrupt
  | stored (data : α)
deriving DecidableEq, Repr

/-- `load_json(path)`: `try: return json.load(open(path))` with
`except Exception: return []` — a missing file (open raises) and a
corrupt file (json.load raises) both yield the empty collection. -/
def load_json (f : DiskFile (List α)) : List α :=
  match f with
  | .missing => []
  | .corrupt => []
  | .stored data => data

/-- `ensure(path, default)`: create the file holding `default` when it
does not exist, leave it alone otherwise. -/
def ensure (f : DiskFile α) (default : α) : DiskFile α :=
  match f with
  | .missing => .stored default
  | other => other

/-- The default management account appended by `main` when none exists:
`{"username": "admin", "password": "admin", "role": "gestao",
"name": "Administrador"}`. -/
def default_admin : Account :=
  { username := "admin", password := "admin", role := "gestao", name := "Administrador" }

/-- The bootstrap in `main`: if no account has role `gestao`, append the
default admin account and save; otherwise leave the collection alone. -/
def main_ensure_admin (users : List Account) : List Account :=
  if users.any (fun u => u.role == "gestao") then users
  else users ++ [default_admin]

/-! ### Rounding lemmas -/

lemma rint_intCast (c : ℤ) : rint (c : ℚ) = c := by
  simp only [rint, Int.floor_intCast]
  norm_num

lemma round2_int_div_100 (c : ℤ) : round2 ((c : ℚ) / 100) = (c : ℚ) / 100 := by
  have h : ((c : ℚ) / 100) * 100 = (c : ℚ) := by
    rw [div_mul_cancel₀]
    norm_num
  rw [round2, h, rint_intCast]

/-! ### Closed form for the parcel loop -/

lemma parcelLoop_eq (base : ℚ) (n : ℕ) :
    ∀ (k i : ℕ) (rem : ℚ), i + k = n + 1 → 1 ≤ k →
      parcelLoop base n k i rem =
        (List.range' i (k - 1)).map (fun j => { number := j, amount := base, paid := false }) ++
          [{ number := n, amount := round2 (rem - ((k : ℚ) - 1) * base), paid := false }] := by
  intro k
  induction k with
  | zero => intro i rem _ h2; exact absurd h2 (by omega)
  | succ k ih =>
    intro i rem h _
    by_cases hk : k = 0
    · subst hk
      have hi : i = n := by omega
      subst hi
      simp [parcelLoop, lt_irrefl]
    · have hk1 : 1 ≤ k := Nat.one_le_iff_ne_zero.mpr hk
      have hi : i < n := by omega
      have hrec := ih (i + 1) (rem - (if i < n then base else round2 rem)) (by omega) hk1
      simp only [parcelLoop, if_pos hi] at hrec ⊢
      rw [hrec]
      have hA : rem - base - ((k : ℚ) - 1) * base = rem - (((k + 1 : ℕ) : ℚ) - 1) * base := by
        push_cast
        ring
      rw [hA]
      have hk2 : k = (k - 1) + 1 := by omega
      have hr : List.range' i ((k + 1) - 1) = i :: List.range' (i + 1) (k - 1) := by
        conv_lhs => rw [Nat.succ_sub_one, hk2, List.range'_succ]
      rw [hr]
      simp

lemma mkParcels_eq (total : ℚ) (n : ℕ) (hn : 1 ≤ n) :
    mkParcels total n =
      (List.range' 1 (n - 1)).map
          (fun j => { number := j, amount := round2 (total / (n : ℚ)), paid := false }) ++
        [{ number := n, amount := round2 (total - ((n : ℚ) - 1) * round2 (total / (n : ℚ))),
           paid := false }] := by
  have h := parcelLoop_eq (round2 (total / (n : ℚ))) n n 1 total (by omega) hn
  rw [mkParcels, h]

lemma round2_100_3 : round2 (100 / 3) = 3333 / 100 := by
  rw [round2, rint]
  norm_num

lemma mkParcels_100_3 :
    mkParcels 100 3 = [⟨1, 3333/100, false⟩, ⟨2, 3333/100, false⟩, ⟨3, 3334/100, false⟩] := by
  rw [mkParcels_eq 100 3 (by omega)]
  have hc : ((3 : ℕ) : ℚ) = 3 := by norm_num
  rw [hc, round2_100_3]
  have h2 : (100 : ℚ) - (3 - 1) * (3333 / 100) = (3334 : ℤ) / 100 := by norm_num
  rw [h2, round2_int_div_100]
  norm_num [List.range']

/-- C1: for a valid total (a positive amount expressible in cents) and a
valid installment count `n ≥ 1`, the generated plan has exactly `n`
installments numbered `1..n`, installments below `n` carry
`base = round(total/n, 2)`, the final one carries the remainder
`round(total - (n-1)·base, 2)`, all start unpaid, the amounts sum to the
total, creation appends exactly this plan, and `total = 100, n = 3`
yields `[33.33, 33.33, 33.34]`. -/
theorem claim_C1 (total : ℚ) (c : ℤ) (n : ℕ)
    (htotal : total = (c : ℚ) / 100) (hpos : 0 < total) (hn : 1 ≤ n) :
    (mkParcels total n).length = n ∧
    (mkParcels total n).map Parcel.number = List.range' 1 n ∧
    (∀ p ∈ mkParcels total n, p.paid = false) ∧
    (∀ p ∈ mkParcels total n, p.number < n → p.amount = round2 (total / (n : ℚ))) ∧
    (∀ p ∈ mkParcels total n, p.number = n →
      p.amount = round2 (total - ((n : ℚ) - 1) * round2 (total / (n : ℚ)))) ∧
    ((mkParcels total n).map Parcel.amount).sum = total ∧
    (∀ (invs : List Invoice) (u ts : String),
      admin_create_invoice_for_patient invs u (some total) (some (n : ℤ)) ts =
        (invs ++ [{ id := new_invoice_id invs, patient_user := u, total := total,
                    parcels := mkParcels total n, created_at := ts, created_by := "gestao" }],
         .created (new_invoice_id invs))) ∧
    mkParcels 100 3 = [⟨1, 3333/100, false⟩, ⟨2, 3333/100, false⟩, ⟨3, 3334/100, false⟩] := by
  have hclosed := mkParcels_eq total n hn
  have hrange : List.range' 1 n = List.range' 1 (n - 1) ++ [n] := by
    have h1 : 1 + 1 * (n - 1) = n := by omega
    conv_lhs => rw [show n = (n - 1) + 1 from by omega]
    rw [List.range'_concat, h1]
  refine ⟨?_, ?_, ?_, ?_, ?_, ?_, ?_, mkParcels_100_3⟩
  · rw [hclosed]
    simp only [List.length_append, List.length_map, List.length_range', List.length_cons,
      List.length_nil]
    omega
  · rw [hclosed, List.map_append, List.map_map, hrange]
    have hid : (Parcel.number ∘ fun j =>
        ({ number := j, amount := round2 (total / (n : ℚ)), paid := false } : Parcel)) =
        fun j => j := rfl
    rw [hid]
    simp
  · intro p hp
    rw [hclosed] at hp
    rcases List.mem_append.mp hp with h | h
    · obtain ⟨j, _, rfl⟩ := List.mem_map.mp h
      rfl
    · simp only [List.mem_singleton] at h
      subst h
      rfl
  · intro p hp _
    rw [hclosed] at hp
    rcases List.mem_append.mp hp with h | h
    · obtain ⟨j, _, rfl⟩ := List.mem_map.mp h
      rfl
    · simp only [List.mem_singleton] at h
      subst h
      simp_all
  · intro p hp hpn
    rw [hclosed] at hp
    rcases List.mem_append.mp hp with h | h
    · obtain ⟨j, hj, rfl⟩ := List.mem_map.mp h
      obtain ⟨i, hi, rfl⟩ := List.mem_range'.mp hj
      simp only at hpn
      omega
    · simp only [List.mem_singleton] at h
      subst h
      rfl
  · rw [hclosed, List.map_append, List.map_map]
    have hconst : (Parcel.amount ∘ fun j =>
        ({ number := j, amount := round2 (total / (n : ℚ)), paid := false } : Parcel)) =
        fun _ => round2 (total / (n : ℚ)) := rfl
    rw [hconst, List.map_const', List.length_range', List.sum_append, List.sum_replicate]
    simp only [List.map_cons, List.map_nil, List.sum_cons, List.sum_nil, add_zero]
    have hbase : round2 (total / (n : ℚ)) = ((rint (total / (n : ℚ) * 100) : ℤ) : ℚ) / 100 := rfl
    set b : ℤ := rint (total / (n : ℚ) * 100) with hb
    have harg : total - ((n : ℚ) - 1) * ((b : ℚ) / 100) =
        ((c - ((n : ℤ) - 1) * b : ℤ) : ℚ) / 100 := by
      rw [htotal]
      push_cast
      ring
    rw [hbase, harg, round2_int_div_100, htotal]
    have hcast : ((n - 1 : ℕ) : ℚ) = (n : ℚ) - 1 := by
      push_cast [Nat.cast_sub hn]
      ring
    rw [nsmul_eq_mul, hcast]
    push_cast
    ring
  · intro invs u ts
    have hn0 : ¬ ((n : ℤ) ≤ 0) := by
      simp only [not_le]
      exact_mod_cast hn
    simp only [admin_create_invoice_for_patient, if_neg hn0, Int.toNat_natCast]

/-- Witness for C1 at `total = 100` (10000 cents), `n = 3`. -/
theorem claim_C1_witness :
    (mkParcels 100 3).length = 3 ∧ ((mkParcels 100 3).map Parcel.amount).sum = 100 := by
  have h := claim_C1 100 10000 3 (by norm_num) (by norm_num) (by omega)
  exact ⟨h.1, h.2.2.2.2.2.1⟩

/-! ### Id assignment -/

lemma le_foldl_max (l : List ℤ) : ∀ init : ℤ, init ≤ l.foldl max init := by
  induction l with
  | nil => intro init; exact le_refl _
  | cons a l ih =>
    intro init
    exact le_trans (le_max_left init a) (ih (max init a))

lemma mem_le_foldl_max (l : List ℤ) : ∀ (init : ℤ) (x : ℤ), x ∈ l → x ≤ l.foldl max init := by
  induction l with
  | nil => intro _ x hx; exact absurd hx (List.not_mem_nil x)
  | cons a l ih =>
    intro init x hx
    rcases List.mem_cons.mp hx with rfl | hx2
    · exact le_trans (le_max_right init x) (le_foldl_max l (max init x))
    · exact ih (max init a) x hx2

lemma foldl_max_mem (l : List ℤ) : ∀ init : ℤ, l.foldl max init = init ∨ l.foldl max init ∈ l := by
  induction l with
  | nil => intro init; exact Or.inl rfl
  | cons a l ih =>
    intro init
    rcases ih (max init a) with h | h
    · rcases max_choice init a with hm | hm
      · exact Or.inl (by rw [List.foldl_cons, h, hm])
      · refine Or.inr (List.mem_cons.mpr (Or.inl ?_))
        rw [List.foldl_cons, h, hm]
    · exact Or.inr (List.mem_cons.mpr (Or.inr h))

lemma new_appt_id_gt (l : List Appointment) (a : Appointment) (ha : a ∈ l) :
    a.id < new_appt_id l := by
  cases l with
  | nil => exact absurd ha (List.not_mem_nil a)
  | cons b rest =>
    rw [new_appt_id]
    have hfm : rest.foldl (fun m x => max m x.id) b.id =
        (rest.map (fun x => x.id)).foldl max b.id := (List.foldl_map _ _ _ _).symm
    rcases List.mem_cons.mp ha with rfl | ha2
    · have := le_foldl_max (rest.map (fun x => x.id)) a.id
      rw [hfm]
      omega
    · have := mem_le_foldl_max (rest.map (fun x => x.id)) b.id a.id
        (List.mem_map.mpr ⟨a, ha2, rfl⟩)
      rw [hfm]
      omega

lemma new_invoice_id_gt (l : List Invoice) (a : Invoice) (ha : a ∈ l) :
    a.id < new_invoice_id l := by
  cases l with
  | nil => exact absurd ha (List.not_mem_nil a)
  | cons b rest =>
    rw [new_invoice_id]
    have hfm : rest.foldl (fun m x => max m x.id) b.id =
        (rest.map (fun x => x.id)).foldl max b.id := (List.foldl_map _ _ _ _).symm
    rcases List.mem_cons.mp ha with rfl | ha2
    · have := le_foldl_max (rest.map (fun x => x.id)) a.id
      rw [hfm]
      omega
    · have := mem_le_foldl_max (rest.map (fun x => x.id)) b.id a.id
        (List.mem_map.mpr ⟨a, ha2, rfl⟩)
      rw [hfm]
      omega

lemma new_appt_id_attained (l : List Appointment) (hne : l ≠ []) :
    ∃ a ∈ l, new_appt_id l = a.id + 1 := by
  cases l with
  | nil => exact absurd rfl hne
  | cons b rest =>
    rw [new_appt_id]
    have hfm : rest.foldl (fun m x => max m x.id) b.id =
        (rest.map (fun x => x.id)).foldl max b.id := (List.foldl_map _ _ _ _).symm
    rcases foldl_max_mem (rest.map (fun x => x.id)) b.id with h | h
    · exact ⟨b, List.mem_cons_self b rest, by rw [hfm, h]⟩
    · obtain ⟨a, ha, hid⟩ := List.mem_map.mp h
      exact ⟨a, List.mem_cons.mpr (Or.inr ha), by rw [hfm, hid]⟩

lemma new_invoice_id_attained (l : List Invoice) (hne : l ≠ []) :
    ∃ a ∈ l, new_invoice_id l = a.id + 1 := by
  cases l with
  | nil => exact absurd rfl hne
  | cons b rest =>
    rw [new_invoice_id]
    have hfm : rest.foldl (fun m x => max m x.id) b.id =
        (rest.map (fun x => x.id)).foldl max b.id := (List.foldl_map _ _ _ _).symm
    rcases foldl_max_mem (rest.map (fun x => x.id)) b.id with h | h
    · exact ⟨b, List.mem_cons_self b rest, by rw [hfm, h]⟩
    · obtain ⟨a, ha, hid⟩ := List.mem_map.mp h
      exact ⟨a, List.mem_cons.mpr (Or.inr ha), by rw [hfm, hid]⟩

/-- C3: freshly assigned ids are `1` on an empty collection and
`max(existing) + 1` otherwise (in particular strictly above every
existing id), for both appointments and invoices; consequently appending
a freshly created record preserves strict increase (hence uniqueness) of
the id sequence in creation order. -/
theorem claim_C3 :
    (new_appt_id [] = 1 ∧ new_invoice_id [] = 1) ∧
    (∀ (l : List Appointment) (a : Appointment), a ∈ l → a.id < new_appt_id l) ∧
    (∀ l : List Appointment, l ≠ [] → ∃ a ∈ l, new_appt_id l = a.id + 1) ∧
    (∀ (l : List Invoice) (i : Invoice), i ∈ l → i.id < new_invoice_id l) ∧
    (∀ l : List Invoice, l ≠ [] → ∃ i ∈ l, new_invoice_id l = i.id + 1) ∧
    (∀ (l : List Appointment) (pu pn : String) (du : Option String) (dt notes ts : String),
      ((l.map Appointment.id).Sorted (· < ·)) →
      (((cadastrar_agendamento l pu pn du dt notes ts).map Appointment.id).Sorted (· < ·))) ∧
    (∀ (invs : List Invoice) (u : String) (tp : Option ℚ) (np : Option ℤ) (ts : String),
      ((invs.map Invoice.id).Sorted (· < ·)) →
      (((admin_create_invoice_for_patient invs u tp np ts).1.map Invoice.id).Sorted (· < ·))) := by
  refine ⟨⟨rfl, rfl⟩, new_appt_id_gt, new_appt_id_attained, new_invoice_id_gt,
    new_invoice_id_attained, ?_, ?_⟩
  · intro l pu pn du dt notes ts hs
    rw [cadastrar_agendamento, List.map_append]
    rw [List.Sorted, List.pairwise_append]
    refine ⟨hs, List.pairwise_singleton _ _, ?_⟩
    intro x hx y hy
    obtain ⟨a, ha, rfl⟩ := List.mem_map.mp hx
    simp only [List.map_cons, List.map_nil, List.mem_singleton] at hy
    subst hy
    exact new_appt_id_gt l a ha
  · intro invs u tp np ts hs
    match tp with
    | none => exact hs
    | some total =>
      match np with
      | none => exact hs
      | some n =>
        by_cases hn : n ≤ 0
        · simp only [admin_create_invoice_for_patient, if_pos hn]
          exact hs
        · simp only [admin_create_invoice_for_patient, if_neg hn, List.map_append]
          rw [List.Sorted, List.pairwise_append]
          refine ⟨hs, List.pairwise_singleton _ _, ?_⟩
          intro x hx y hy
          obtain ⟨a, ha, rfl⟩ := List.mem_map.mp hx
          simp only [List.map_cons, List.map_nil, List.mem_singleton] at hy
          subst hy
          exact new_invoice_id_gt invs a ha

/-- The appointment used by the C3 witness. -/
def c3Appt : Appointment :=
  { id := 5, patient_user := "ana", patient_name := "Ana", doctor_user := none,
    datetime := "2025-08-10 14:30", status := "agendado", notes := "",
    created_at := "t", created_by := "ana", last_modified_at := none,
    last_modified_by := none }

/-- Witness for C3: on the one-element collection `[c3Appt]` the existing
id `5` is strictly below the fresh id, and the fresh id is `5 + 1`. -/
theorem claim_C3_witness :
    c3Appt.id < new_appt_id [c3Appt] ∧ ∃ a ∈ [c3Appt], new_appt_id [c3Appt] = a.id + 1 := by
  exact ⟨claim_C3.2.1 [c3Appt] c3Appt (List.mem_cons_self _ _),
    claim_C3.2.2.1 [c3Appt] (by simp)⟩

/-! ### Lemmas about updateFirst and find? -/

lemma updateFirst_of_find?_none (p : α → Bool) (f : α → α) (l : List α)
    (h : l.find? p = none) : updateFirst p f l = l := by
  induction l with
  | nil => rfl
  | cons a l ih =>
    rw [List.find?_cons] at h
    cases hp : p a with
    | true => rw [hp] at h; exact absurd h (by simp)
    | false =>
      rw [hp] at h
      rw [updateFirst, if_neg (by simp [hp]), ih h]

lemma find?_updateFirst (p : α → Bool) (f : α → α) (hf : ∀ a, p (f a) = p a) :
    ∀ l : List α, (updateFirst p f l).find? p = (l.find? p).map f := by
  intro l
  induction l with
  | nil => rfl
  | cons a l ih =>
    cases hp : p a with
    | true =>
      rw [updateFirst, if_pos hp, List.find?_cons, List.find?_cons, hp, hf a, hp]
      rfl
    | false =>
      rw [updateFirst, if_neg (by simp [hp]), List.find?_cons, List.find?_cons, hp, ih]

lemma updateFirst_updateFirst (p : α → Bool) (f g : α → α)
    (hg : ∀ a, p (g a) = p a) (l : List α) :
    updateFirst p f (updateFirst p g l) = updateFirst p (fun a => f (g a)) l := by
  induction l with
  | nil => rfl
  | cons a l ih =>
    cases hp : p a with
    | true =>
      rw [updateFirst, if_pos hp, updateFirst, if_pos (by rw [hg a, hp]), updateFirst, if_pos hp]
    | false =>
      rw [updateFirst, if_neg (by simp [hp]), updateFirst, if_neg (by simp [hp]),
        updateFirst, if_neg (by simp [hp]), ih]

lemma updateFirst_id_of_eq (p : α → Bool) (h : α → α) (hh : ∀ a, h a = a) (l : List α) :
    updateFirst p h l = l := by
  induction l with
  | nil => rfl
  | cons a l ih =>
    cases hp : p a with
    | true => rw [updateFirst, if_pos hp, hh a]
    | false => rw [updateFirst, if_neg (by simp [hp]), ih]

lemma apptOfPatient_iff (id_int : ℤ) (username : String) (a : Appointment) :
    apptOfPatient id_int username a = true ↔ a.id = id_int ∧ a.patient_user = username := by
  simp [apptOfPatient]

lemma find?_apptOfPatient_none (appointments : List Appointment) (id_int : ℤ)
    (username : String)
    (h : ¬ ∃ a ∈ appointments, a.id = id_int ∧ a.patient_user = username) :
    appointments.find? (apptOfPatient id_int username) = none := by
  rw [List.find?_eq_none]
  intro a ha hp
  exact h ⟨a, ha, (apptOfPatient_iff id_int username a).mp hp⟩

/-- C4: each of the three patient-side appointment mutations (edit,
cancel-mark, destructive remove) succeeds only when some appointment in
the collection carries the targeted id together with the acting
patient's own username; when no such appointment exists (absent id or an
appointment owned by another patient), each operation returns the
collection unchanged and unsaved. -/
theorem claim_C4 (appointments : List Appointment) (username : String)
    (id_int : ℤ) (novo_doc : Option String) (novo_dt ts : String) (confirmed : Bool) :
    ((¬ ∃ a ∈ appointments, a.id = id_int ∧ a.patient_user = username) →
      paciente_editar_agendamento appointments username id_int novo_doc novo_dt ts =
        (appointments, false) ∧
      paciente_cancelar_agendamento appointments username id_int confirmed ts =
        (appointments, false) ∧
      paciente_remover_agendamento appointments username id_int confirmed =
        (appointments, false)) ∧
    ((paciente_editar_agendamento appointments username id_int novo_doc novo_dt ts).2 = true →
      ∃ a ∈ appointments, a.id = id_int ∧ a.patient_user = username) ∧
    ((paciente_cancelar_agendamento appointments username id_int confirmed ts).2 = true →
      ∃ a ∈ appointments, a.id = id_int ∧ a.patient_user = username) ∧
    ((paciente_remover_agendamento appointments username id_int confirmed).2 = true →
      ∃ a ∈ appointments, a.id = id_int ∧ a.patient_user = username) := by
  constructor
  · intro h
    have hn := find?_apptOfPatient_none appointments id_int username h
    refine ⟨?_, ?_, ?_⟩
    · rw [paciente_editar_agendamento, hn]
    · rw [paciente_cancelar_agendamento, hn]
    · rw [paciente_remover_agendamento, hn]
  · refine ⟨?_, ?_, ?_⟩ <;>
      · intro hs
        by_contra h
        have hn := find?_apptOfPatient_none appointments id_int username h
        simp only [paciente_editar_agendamento, paciente_cancelar_agendamento,
          paciente_remover_agendamento, hn] at hs
        exact Bool.false_ne_true hs

/-- The appointment used by the C4 witness: owned by `"ana"`. -/
def c4Appt : Appointment :=
  { id := 1, patient_user := "ana", patient_name := "Ana", doctor_user := none,
    datetime := "2025-08-10 14:30", status := "agendado", notes := "",
    created_at := "t", created_by := "ana", last_modified_at := none,
    last_modified_by := none }

/-- Witness for C4: patient `"bob"` acting on `"ana"`'s appointment id 1
leaves the collection unchanged and unsaved for all three operations. -/
theorem claim_C4_witness :
    paciente_editar_agendamento [c4Appt] "bob" 1 none "d" "ts" = ([c4Appt], false) ∧
    paciente_cancelar_agendamento [c4Appt] "bob" 1 true "ts" = ([c4Appt], false) ∧
    paciente_remover_agendamento [c4Appt] "bob" 1 true = ([c4Appt], false) := by
  exact (claim_C4 [c4Appt] "bob" 1 none "d" "ts" true).1 (by decide)

/-! ### Doctor status mutation -/

lemma apptOfDoctor_iff (id_int : ℤ) (doctor_user : String) (a : Appointment) :
    apptOfDoctor id_int doctor_user a = true ↔
      a.id = id_int ∧ a.doctor_user = some doctor_user := by
  simp [apptOfDoctor]

lemma find?_apptOfDoctor_none (appointments : List Appointment) (id_int : ℤ)
    (doctor_user : String)
    (h : ¬ ∃ a ∈ appointments, a.id = id_int ∧ a.doctor_user = some doctor_user) :
    appointments.find? (apptOfDoctor id_int doctor_user) = none := by
  rw [List.find?_eq_none]
  intro a ha hp
  exact h ⟨a, ha, (apptOfDoctor_iff id_int doctor_user a).mp hp⟩

/-- C5: the doctor's set-status operation succeeds exactly when some
appointment carries the targeted id assigned to the acting doctor and
the new status is one of the four valid strings (no condition on the
current status); every failure leaves the collection unchanged and
unsaved; a success leaves an appointment in the collection with that id,
that doctor, the new status, and refreshed last-modified audit fields. -/
theorem claim_C5 (appointments : List Appointment) (doctor_user : String)
    (id_int : ℤ) (novo ts : String) :
    ((editar_status_agendamento_medico appointments doctor_user id_int novo ts).2 = true ↔
      (∃ a ∈ appointments, a.id = id_int ∧ a.doctor_user = some doctor_user) ∧
        novo ∈ status_validos) ∧
    ((editar_status_agendamento_medico appointments doctor_user id_int novo ts).2 = false →
      (editar_status_agendamento_medico appointments doctor_user id_int novo ts).1 =
        appointments) ∧
    ((editar_status_agendamento_medico appointments doctor_user id_int novo ts).2 = true →
      ∃ a ∈ (editar_status_agendamento_medico appointments doctor_user id_int novo ts).1,
        a.id = id_int ∧ a.doctor_user = some doctor_user ∧ a.status = novo ∧
          a.last_modified_at = some ts ∧ a.last_modified_by = some doctor_user) := by
  refine ⟨⟨?_, ?_⟩, ?_, ?_⟩
  · intro hs
    cases hfind : appointments.find? (apptOfDoctor id_int doctor_user) with
    | none =>
      rw [editar_status_agendamento_medico, hfind] at hs
      exact absurd hs (by simp)
    | some a =>
      have hmem := List.mem_of_find?_eq_some hfind
      have hp := (apptOfDoctor_iff id_int doctor_user a).mp (List.find?_some hfind)
      refine ⟨⟨a, hmem, hp⟩, ?_⟩
      by_contra hnovo
      have hc : status_validos.contains novo = false := by
        rw [← Bool.not_eq_true, List.contains_eq_any_beq]
        simp only [List.any_eq_true, beq_iff_eq, not_exists, not_and]
        intro x hx hxe
        exact hnovo (hxe ▸ hx)
      rw [editar_status_agendamento_medico, hfind] at hs
      rw [if_neg (by rw [hc]; simp)] at hs
      exact absurd hs (by simp)
  · rintro ⟨⟨a, hmem, hp⟩, hnovo⟩
    cases hfind : appointments.find? (apptOfDoctor id_int doctor_user) with
    | none =>
      rw [List.find?_eq_none] at hfind
      exact absurd ((apptOfDoctor_iff id_int doctor_user a).mpr hp) (by simpa using hfind a hmem)
    | some b =>
      have hc : status_validos.contains novo = true := by
        rw [List.contains_eq_any_beq]
        simp only [List.any_eq_true, beq_iff_eq]
        exact ⟨novo, hnovo, rfl⟩
      rw [editar_status_agendamento_medico, hfind, if_pos hc]
  · intro hf
    cases hfind : appointments.find? (apptOfDoctor id_int doctor_user) with
    | none => rw [editar_status_agendamento_medico, hfind]
    | some b =>
      cases hc : status_validos.contains novo with
      | true =>
        rw [editar_status_agendamento_medico, hfind, if_pos hc] at hf
        exact absurd hf (by simp)
      | false =>
        rw [editar_status_agendamento_medico, hfind, if_neg (by rw [hc]; simp)]
  · intro hs
    cases hfind : appointments.find? (apptOfDoctor id_int doctor_user) with
    | none =>
      rw [editar_status_agendamento_medico, hfind] at hs
      exact absurd hs (by simp)
    | some a =>
      cases hc : status_validos.contains novo with
      | false =>
        rw [editar_status_agendamento_medico, hfind, if_neg (by rw [hc]; simp)] at hs
        exact absurd hs (by simp)
      | true =>
        have hpres : ∀ b : Appointment, apptOfDoctor id_int doctor_user
            ({ b with status := novo, last_modified_at := some ts,
                      last_modified_by := some doctor_user }) =
              apptOfDoctor id_int doctor_user b := by
          intro b
          rfl
        have hres := find?_updateFirst (apptOfDoctor id_int doctor_user)
          (fun b => { b with status := novo, last_modified_at := some ts,
                             last_modified_by := some doctor_user }) hpres appointments
        rw [hfind] at hres
        simp only [editar_status_agendamento_medico, hfind, if_pos hc]
        refine ⟨{ a with status := novo, last_modified_at := some ts,
                         last_modified_by := some doctor_user },
          List.mem_of_find?_eq_some hres, ?_⟩
        have hp := (apptOfDoctor_iff id_int doctor_user a).mp (List.find?_some hfind)
        exact ⟨hp.1, hp.2, rfl, rfl, rfl⟩

/-- The appointment used by the C5 witness: assigned to doctor `"drx"`. -/
def c5Appt : Appointment :=
  { id := 2, patient_user := "ana", patient_name := "Ana", doctor_user := some "drx",
    datetime := "2025-08-10 14:30", status := "agendado", notes := "",
    created_at := "t", created_by := "ana", last_modified_at := none,
    last_modified_by := none }

/-- Witness for C5: doctor `"drx"` sets appointment 2 to `"concluido"`,
and the saved collection contains the updated record with refreshed
audit fields. -/
theorem claim_C5_witness :
    ∃ a ∈ (editar_status_agendamento_medico [c5Appt] "drx" 2 "concluido" "ts").1,
      a.id = 2 ∧ a.doctor_user = some "drx" ∧ a.status = "concluido" ∧
        a.last_modified_at = some "ts" ∧ a.last_modified_by = some "drx" := by
  exact (claim_C5 [c5Appt] "drx" 2 "concluido" "ts").2.2 (by decide)

/-! ### Authentication -/

/-- The account used by the C6 theorems: a valid patient credential. -/
def c6Acct : Account :=
  { username := "p1", password := "pw", role := "paciente", name := "P One" }

/-- Counterexample to C6 as stated: the source prints the same
`"Usuário ou senha inválidos."` error (one combined branch, `if not user
or user.get("password") != password`) both when no account matches the
username and when the password differs, so authentication does not fail
with a distinct `NotFound` outcome in the first case — the two failures
are the identical result. -/
theorem claim_C6_counterexample :
    autenticar [c6Acct] "paciente" "ghost" "x" = AuthResult.errCredenciais ∧
    autenticar [c6Acct] "paciente" "p1" "wrong" = AuthResult.errCredenciais := by
  exact ⟨rfl, rfl⟩

/-- C6 (amended): authentication fails with the single combined
invalid-credentials outcome both when no account matches the username
and when an account matches but the password differs; it fails with the
wrong-role outcome when username and password match but the role differs
from the expected one; otherwise it succeeds returning the account. -/
theorem claim_C6 (users : List Account) (role_expected username password : String) :
    (find_user users username = none →
      autenticar users role_expected username password = .errCredenciais) ∧
    (∀ acc, find_user users username = some acc → acc.password ≠ password →
      autenticar users role_expected username password = .errCredenciais) ∧
    (∀ acc, find_user users username = some acc → acc.password = password →
      acc.role ≠ role_expected →
      autenticar users role_expected username password = .errPermissao) ∧
    (∀ acc, find_user users username = some acc → acc.password = password →
      acc.role = role_expected →
      autenticar users role_expected username password = .success acc) := by
  refine ⟨?_, ?_, ?_, ?_⟩
  · intro h
    rw [autenticar, h]
  · intro acc h hpw
    rw [autenticar, h]
    simp only [beq_iff_eq, if_neg hpw]
  · intro acc h hpw hrole
    rw [autenticar, h]
    simp only [beq_iff_eq, if_pos hpw, if_neg hrole]
  · intro acc h hpw hrole
    rw [autenticar, h]
    simp only [beq_iff_eq, if_pos hpw, if_pos hrole]

/-- Witness for C6 (amended) at the concrete instance named by the spec:
a valid patient credential presented against the doctor-role check fails
with the wrong-role outcome. -/
theorem claim_C6_witness :
    autenticar [c6Acct] "medico" "p1" "pw" = AuthResult.errPermissao := by
  exact (claim_C6 [c6Acct] "medico" "p1" "pw").2.2.1 c6Acct rfl rfl (by decide)

/-! ### Account and patient creation -/

/-- Counterexample to C7 as stated: the management patient-creation
helper (`admin_crud_patients`, option 2) appends without checking for an
existing record linked to the same username, so starting from a
collection already holding a patient linked to `"u"`, creating another
with `userlink = "u"` yields two patients reachable by that username. -/
theorem claim_C7_counterexample :
    ((admin_criar_paciente [{ nome := "Ana", idade := 30, telefone := "t", user := some "u" }]
        "Bia" 20 "t2" (some "u")).filter
      (fun p => p.user == some "u")).length = 2 := by
  rfl

/-- C7 (amended): `criar_usuario` checks before inserting: a duplicate
username changes nothing; a fresh patient account auto-creates exactly
one linked patient record when none exists for the username and none
when one already exists, and repeating the creation after a success
changes nothing further.  The management patient-creation helper,
however, appends unconditionally (no check-before-insert). -/
theorem claim_C7 (users : List Account) (patients : List Patient)
    (role username password name : String) (authOk : Bool) :
    ((find_user users username).isSome = true →
      criar_usuario users patients role username password name authOk =
        (users, patients, none)) ∧
    (find_user users username = none → role = "paciente" →
      patients.find? (fun p => p.user == some username) = none →
      (((criar_usuario users patients role username password name authOk).2.1).filter
        (fun p => p.user == some username)).length = 1) ∧
    (find_user users username = none → role = "paciente" →
      (patients.find? (fun p => p.user == some username)).isSome = true →
      (criar_usuario users patients role username password name authOk).2.1 = patients) ∧
    (∀ acc, (criar_usuario users patients role username password name authOk).2.2 = some acc →
      ∀ role2 password2 name2 authOk2,
        criar_usuario (criar_usuario users patients role username password name authOk).1
          (criar_usuario users patients role username password name authOk).2.1
          role2 username password2 name2 authOk2 =
        ((criar_usuario users patients role username password name authOk).1,
         (criar_usuario users patients role username password name authOk).2.1, none)) ∧
    (∀ (ps : List Patient) (nome : String) (idade : ℕ) (tel : String) (ul : Option String),
      admin_criar_paciente ps nome idade tel ul =
        ps ++ [{ nome := nome, idade := idade, telefone := tel, user := ul }]) := by
  refine ⟨?_, ?_, ?_, ?_, fun ps nome idade tel ul => rfl⟩
  · intro h
    rw [criar_usuario, if_pos h]
  · intro hu hrole hp
    have hfilter : patients.filter (fun p => p.user == some username) = [] := by
      rw [List.filter_eq_nil_iff]
      intro p hmem
      rw [List.find?_eq_none] at hp
      exact hp p hmem
    rw [criar_usuario, if_neg (by rw [hu]; simp), if_neg (by rw [hrole]; simp)]
    rw [if_pos (by rw [hrole]; simp), if_neg (by rw [hp]; simp)]
    simp only [List.filter_append, hfilter, List.nil_append]
    simp
  · intro hu hrole hp
    rw [criar_usuario, if_neg (by rw [hu]; simp), if_neg (by rw [hrole]; simp)]
    rw [if_pos (by rw [hrole]; simp), if_pos hp]
  · intro acc hacc role2 password2 name2 authOk2
    by_cases h1 : (find_user users username).isSome = true
    · rw [criar_usuario, if_pos h1] at hacc
      exact absurd hacc (by simp)
    · have hu : find_user users username = none := by
        rw [Option.not_isSome_iff_eq_none] at h1
        exact h1
      by_cases h2 : (role == "medico" && !authOk) = true
      · rw [criar_usuario, if_neg h1, if_pos h2] at hacc
        exact absurd hacc (by simp)
      · have husers : (criar_usuario users patients role username password name authOk).1 =
            users ++ [{ username := username, password := password,
                        role := role, name := name }] := by
          rw [criar_usuario, if_neg h1, if_neg h2]
          by_cases h3 : (role == "paciente") = true
          · rw [if_pos h3]
            by_cases h4 : (patients.find? (fun p => p.user == some username)).isSome = true
            · rw [if_pos h4]
            · rw [if_neg h4]
          · rw [if_neg h3]
        have hdup : (find_user
            (criar_usuario users patients role username password name authOk).1
            username).isSome = true := by
          rw [husers, find_user, List.find?_append]
          rw [find_user] at hu
          rw [hu]
          simp
        rw [criar_usuario, if_pos hdup]

/-- Witness for C7 (amended): creating the patient account `"u"` on
empty collections yields exactly one patient record linked to `"u"`. -/
theorem claim_C7_witness :
    (((criar_usuario [] [] "paciente" "u" "pw" "N" true).2.1).filter
      (fun p => p.user == some "u")).length = 1 := by
  exact (claim_C7 [] [] "paciente" "u" "pw" "N" true).2.1 rfl rfl rfl

/-! ### Invoice creation validation -/

/-- Counterexample to C2 as stated: the source checks only that the
total text parses (`float(total_txt)`); it never checks positivity or
finiteness, so the non-positive total `-5` is accepted and an invoice is
created instead of failing with an invalid-amount error. -/
theorem claim_C2_counterexample :
    (admin_create_invoice_for_patient [] "u" (some (-5)) (some 2) "t").2 =
      CreateInvoiceResult.created 1 ∧
    ((admin_create_invoice_for_patient [] "u" (some (-5)) (some 2) "t").1).length = 1 := by
  exact ⟨rfl, rfl⟩

/-- C2 (amended): invoice creation fails with the invalid-amount error
exactly when the total text does not parse as a number (no positivity or
finiteness check is made on a parsed total, so any parsed value,
including zero and negatives, is accepted), fails with the invalid-count
error when the count does not parse or is not positive, and in every
failure case the invoices collection is returned unchanged; with a
parsed total and a positive count it appends exactly one invoice. -/
theorem claim_C2 (invoices : List Invoice) (u : String) (totalParsed : Option ℚ)
    (nParsed : Option ℤ) (ts : String) :
    (totalParsed = none →
      admin_create_invoice_for_patient invoices u totalParsed nParsed ts =
        (invoices, .errValor)) ∧
    (∀ t, totalParsed = some t → nParsed = none →
      admin_create_invoice_for_patient invoices u totalParsed nParsed ts =
        (invoices, .errParcelas)) ∧
    (∀ t n, totalParsed = some t → nParsed = some n → n ≤ 0 →
      admin_create_invoice_for_patient invoices u totalParsed nParsed ts =
        (invoices, .errParcelas)) ∧
    (∀ t n, totalParsed = some t → nParsed = some n → 0 < n →
      ∃ inv, admin_create_invoice_for_patient invoices u totalParsed nParsed ts =
        (invoices ++ [inv], .created inv.id)) := by
  refine ⟨?_, ?_, ?_, ?_⟩
  · rintro rfl
    rfl
  · rintro t rfl rfl
    rfl
  · rintro t n rfl rfl h3
    simp only [admin_create_invoice_for_patient, if_pos h3]
  · rintro t n rfl rfl h3
    refine ⟨{ id := new_invoice_id invoices, patient_user := u, total := t,
              parcels := mkParcels t n.toNat, created_at := ts,
              created_by := "gestao" }, ?_⟩
    simp only [admin_create_invoice_for_patient, if_neg (not_le.mpr h3)]

/-- Witness for C2 (amended): a zero installment count is rejected and
the empty collection is unchanged. -/
theorem claim_C2_witness :
    admin_create_invoice_for_patient [] "u" (some 10) (some 0) "t" =
      ([], CreateInvoiceResult.errParcelas) := by
  exact (claim_C2 [] "u" (some 10) (some 0) "t").2.2.1 10 0 rfl rfl (by decide)

/-! ### Toggling a parcel's paid flag -/

/-- C8: a successful toggle of an installment's paid flag, applied
twice to the same invoice id and installment number, returns the whole
invoices collection to its original state (double toggle is the
identity), and each successful single application leaves the first
matching invoice holding the same parcel with its paid flag negated. -/
theorem claim_C8 (invoices : List Invoice) (id_int : ℤ) (num : ℕ)
    (h : (admin_edit_invoice_parcel invoices id_int num).2 = true) :
    admin_edit_invoice_parcel (admin_edit_invoice_parcel invoices id_int num).1 id_int num =
      (invoices, true) ∧
    (∀ inv parc, invoices.find? (invoiceWithId id_int) = some inv →
      inv.parcels.find? (parcelWithNumber num) = some parc →
      ∃ inv2,
        (admin_edit_invoice_parcel invoices id_int num).1.find? (invoiceWithId id_int) =
          some inv2 ∧
        inv2.parcels.find? (parcelWithNumber num) = some (flipParcel parc)) := by
  have hPF : ∀ i : Invoice, invoiceWithId id_int (flipInvoice num i) = invoiceWithId id_int i :=
    fun i => rfl
  have hQG : ∀ p : Parcel, parcelWithNumber num (flipParcel p) = parcelWithNumber num p :=
    fun p => rfl
  have hGG : ∀ p : Parcel, flipParcel (flipParcel p) = p := by
    intro p
    cases p
    simp [flipParcel]
  have hFF : ∀ i : Invoice, flipInvoice num (flipInvoice num i) = i := by
    intro i
    cases i with
    | mk iid pu tot parcels ca cb =>
      simp only [flipInvoice]
      rw [updateFirst_updateFirst _ _ _ hQG, updateFirst_id_of_eq _ _ hGG]
  cases hfind : invoices.find? (invoiceWithId id_int) with
  | none =>
    rw [admin_edit_invoice_parcel, hfind] at h
    exact absurd h (by simp)
  | some inv0 =>
    cases hparc : inv0.parcels.find? (parcelWithNumber num) with
    | none =>
      simp only [admin_edit_invoice_parcel, hfind, hparc] at h
      exact absurd h (by simp)
    | some parc0 =>
      have hres : admin_edit_invoice_parcel invoices id_int num =
          (updateFirst (invoiceWithId id_int) (flipInvoice num) invoices, true) := by
        simp only [admin_edit_invoice_parcel, hfind, hparc]
      have hfind2 : (updateFirst (invoiceWithId id_int) (flipInvoice num) invoices).find?
          (invoiceWithId id_int) = some (flipInvoice num inv0) := by
        rw [find?_updateFirst _ _ hPF, hfind]
        rfl
      have hparc2 : (flipInvoice num inv0).parcels.find? (parcelWithNumber num) =
          some (flipParcel parc0) := by
        show (updateFirst (parcelWithNumber num) flipParcel inv0.parcels).find?
          (parcelWithNumber num) = some (flipParcel parc0)
        rw [find?_updateFirst _ _ hQG, hparc]
        rfl
      constructor
      · rw [hres]
        simp only [admin_edit_invoice_parcel, hfind2, hparc2]
        rw [updateFirst_updateFirst _ _ _ hPF, updateFirst_id_of_eq _ _ hFF]
      · intro inv parc h1 h2
        have h1e := Option.some.inj h1
        subst h1e
        rw [hparc] at h2
        have h2e := Option.some.inj h2
        subst h2e
        exact ⟨flipInvoice num inv0, by rw [hres]; exact hfind2, hparc2⟩

/-- The invoice used by the C8 witness: one 50-unit installment. -/
def c8Inv : Invoice :=
  { id := 1, patient_user := "u", total := 50,
    parcels := [{ number := 1, amount := 50, paid := false }],
    created_at := "t", created_by := "gestao" }

/-- Witness for C8: toggling parcel 1 of invoice 1 twice restores the
original collection. -/
theorem claim_C8_witness :
    admin_edit_invoice_parcel (admin_edit_invoice_parcel [c8Inv] 1 1).1 1 1 =
      ([c8Inv], true) := by
  exact (claim_C8 [c8Inv] 1 1 rfl).1

/-! ### Storage loading and the default admin -/

/-- C9: loading a missing or corrupt collection file yields the empty
collection instead of an error, `ensure` creates a missing file with the
supplied default and leaves an existing file untouched, and every load
outcome is a plain value (the stored data, or the empty collection) —
the bare `except Exception` means no load raises to its caller. -/
theorem claim_C9 (α : Type) (f : DiskFile (List α)) (d : List α) :
    load_json (DiskFile.missing : DiskFile (List α)) = [] ∧
    load_json (DiskFile.corrupt : DiskFile (List α)) = [] ∧
    ensure (DiskFile.missing : DiskFile (List α)) d = DiskFile.stored d ∧
    (f ≠ DiskFile.missing → ensure f d = f) ∧
    (load_json f = [] ∨ f = DiskFile.stored (load_json f)) := by
  refine ⟨rfl, rfl, rfl, ?_, ?_⟩
  · intro h
    cases f with
    | missing => exact absurd rfl h
    | corrupt => rfl
    | stored data => rfl
  · cases f with
    | missing => exact Or.inl rfl
    | corrupt => exact Or.inl rfl
    | stored data => exact Or.inr rfl

/-- Witness for C9: a corrupt users file loads as the empty collection
and is left as it is by `ensure`. -/
theorem claim_C9_witness :
    ensure (DiskFile.corrupt : DiskFile (List Account)) [] = DiskFile.corrupt ∧
    load_json (DiskFile.corrupt : DiskFile (List Account)) = [] := by
  have h := claim_C9 Account DiskFile.corrupt []
  exact ⟨h.2.2.2.1 (by simp), h.2.1⟩

/-- C10: at startup, when no stored account has the management role
`gestao`, exactly the one default `admin`/`admin` management account is
appended and persisted; when some management account exists the users
collection is left unchanged. -/
theorem claim_C10 (users : List Account) :
    ((∀ u ∈ users, u.role ≠ "gestao") →
      main_ensure_admin users = users ++ [default_admin]) ∧
    ((∃ u ∈ users, u.role = "gestao") → main_ensure_admin users = users) ∧
    default_admin.username = "admin" ∧ default_admin.password = "admin" ∧
    default_admin.role = "gestao" ∧ default_admin.name = "Administrador" := by
  refine ⟨?_, ?_, rfl, rfl, rfl, rfl⟩
  · intro h
    rw [main_ensure_admin, if_neg]
    simp only [List.any_eq_true, beq_iff_eq, not_exists, not_and]
    intro u hu
    exact h u hu
  · rintro ⟨u, hu, hrole⟩
    rw [main_ensure_admin, if_pos]
    simp only [List.any_eq_true, beq_iff_eq]
    exact ⟨u, hu, hrole⟩

/-- Witness for C10: on an empty users collection the bootstrap appends
exactly the default admin account. -/
theorem claim_C10_witness :
    main_ensure_admin [] = [default_admin] := by
  exact (claim_C10 []).1 (by simp)
